import Mathlib

/-!
Verification of the sequential background-task runner in
`threaded_loading_dialog.py` (`TaskWorkerThread.run` / `cancel` and the
`ThreadedLoadingDialog` event handlers).

The worker thread is embedded as a pure function from the task queue and
the sequence of reads of the `_is_cancelled` flag to the list of emitted
Qt signals (events), the final `results` list and a termination status.
Iteration `i` of the loop reads the flag twice: read number `2*i` before
the task starts and read number `2*i + 1` after the task's operation
returns, exactly as in the Python source.
-/

/-- A task descriptor, mirroring the dictionaries accepted by
`TaskWorkerThread.__init__`: a required `'function'` entry, and optional
`'description'`, `'args'`, `'kwargs'` entries (`none` models a missing
key, read via `dict.get` with a default in the source).  The callable is
modelled as a function from its positional and keyword arguments to
either a result (normal return) or an error message (a raised
exception's text); `funcName` models `str(func)`, the printed identity
of the callable used in the error message. -/
structure TaskDescriptor (α : Type) where
  function : List α → List (String × α) → Except String α
  funcName : String
  description : Option String
  args : Option (List α)
  kwargs : Option (List (String × α))

/-- The Qt signals declared on `TaskWorkerThread`:
`task_started(i, description)`, `task_completed(i)`,
`progress(current, total)`, `all_completed(results)`, `error(message)`. -/
inductive Event (α : Type) where
  | taskStarted (i : Nat) (description : String)
  | taskCompleted (i : Nat)
  | progress (current total : Nat)
  | allCompleted (results : List α)
  | error (msg : String)
deriving DecidableEq

/-- How a run of `TaskWorkerThread.run` terminates: reaching the end of
the loop (`completed`), the `except` clause (`errored`), an early
`return` after observing `_is_cancelled` (`cancelled`), or an exception
escaping `run` uncaught (`raised` — the embedding allows it so that
"never propagated" is a real statement; the code never produces it). -/
inductive RunStatus where
  | completed
  | errored
  | cancelled
  | raised (msg : String)
deriving DecidableEq

/-- The observable outcome of one run: the emitted events in order, the
final `self.results` list, and the termination status. -/
structure RunResult (α : Type) where
  events : List (Event α)
  results : List α
  status : RunStatus

/-- `func(*args, **kwargs)` with the source's defaults
`task.get('args', ())` and `task.get('kwargs', {})`. -/
def callT {α : Type} (t : TaskDescriptor α) : Except String α :=
  t.function (t.args.getD []) (t.kwargs.getD [])

/-- `task.get('description', f'Task {i+1}')`. -/
def descOf {α : Type} (t : TaskDescriptor α) (i : Nat) : String :=
  t.description.getD ("Task " ++ toString (i + 1))

/-- The loop body of `TaskWorkerThread.run`, from task index `i` with
the tasks not yet processed, the current `self.results`, and the queue
length `total` (`total_tasks`).  `cancel r` is the value returned by the
`r`-th read of `self._is_cancelled`. -/
def runLoop {α : Type} (cancel : Nat → Bool) (total : Nat) :
    List (TaskDescriptor α) → Nat → List α → RunResult α
  | [], _, results =>
      { events := [Event.progress total total, Event.allCompleted results],
        results := results, status := RunStatus.completed }
  | t :: rest, i, results =>
      if cancel (2 * i) then
        { events := [], results := results, status := RunStatus.cancelled }
      else
        let description := descOf t i
        let headEvs : List (Event α) :=
          [Event.taskStarted i description, Event.progress i total]
        match callT t with
        | Except.error e =>
            { events := headEvs ++ [Event.error ("Error:" ++ t.funcName ++ " " ++ e)],
              results := results, status := RunStatus.errored }
        | Except.ok v =>
            let results2 := results ++ [v]
            if cancel (2 * i + 1) then
              { events := headEvs, results := results2,
                status := RunStatus.cancelled }
            else
              let tail := runLoop cancel total rest (i + 1) results2
              { events := headEvs ++ [Event.taskCompleted i] ++ tail.events,
                results := tail.results, status := tail.status }

/-- `TaskWorkerThread.run` on a freshly constructed worker
(`self.results = []`). -/
def runWorker {α : Type} (tasks : List (TaskDescriptor α)) (cancel : Nat → Bool) :
    RunResult α :=
  runLoop cancel tasks.length tasks 0 []

/-- `t` succeeds with value `v`, taskwise over a queue: `results` pairs
with the queue so that entry `i` is the value returned by task `i`'s
operation. -/
def Succeeds {α : Type} (tasks : List (TaskDescriptor α)) (outs : List α) : Prop :=
  List.Forall₂ (fun t v => callT t = Except.ok v) tasks outs

/-! ### Trace observations -/

def isAllCompleted {α : Type} : Event α → Bool
  | Event.allCompleted _ => true
  | _ => false

def isErrorEvent {α : Type} : Event α → Bool
  | Event.error _ => true
  | _ => false

/-- Indices carried by the `task_started` events, in emission order. -/
def startedIndices {α : Type} : List (Event α) → List Nat
  | [] => []
  | Event.taskStarted i _ :: rest => i :: startedIndices rest
  | _ :: rest => startedIndices rest

/-- Indices carried by the `task_completed` events, in emission order. -/
def completedIndices {α : Type} : List (Event α) → List Nat
  | [] => []
  | Event.taskCompleted i :: rest => i :: completedIndices rest
  | _ :: rest => completedIndices rest

/-- `current` fields of the `progress` events, in emission order. -/
def progressValues {α : Type} : List (Event α) → List Nat
  | [] => []
  | Event.progress c _ :: rest => c :: progressValues rest
  | _ :: rest => progressValues rest

/-- `[i, i+1, ..., i+n-1]`. -/
def climb : Nat → Nat → List Nat
  | _, 0 => []
  | i, n + 1 => i :: climb (i + 1) n

/-- `a` occurs immediately before `b` somewhere in the list. -/
def immBefore {α : Type} [DecidableEq α] (a b : Event α) :
    List (Event α) → Bool
  | x :: y :: rest => (decide (x = a) && decide (y = b)) || immBefore a b (y :: rest)
  | _ => false

/-- `nondecreasingFrom a l`: `a :: l` is sorted by `≤`, checked pairwise. -/
def nondecreasingFrom : Nat → List Nat → Bool
  | _, [] => true
  | a, b :: rest => decide (a ≤ b) && nondecreasingFrom b rest

def nondecreasing : List Nat → Bool
  | [] => true
  | a :: rest => nondecreasingFrom a rest

/-- The three events task `i` contributes on the all-success path:
`task_started`, then `progress`, then `task_completed`, for each task in
order. -/
def succEvents {α : Type} (total : Nat) : Nat → List (TaskDescriptor α) → List (Event α)
  | _, [] => []
  | i, t :: rest =>
      Event.taskStarted i (descOf t i) :: Event.progress i total ::
        Event.taskCompleted i :: succEvents total (i + 1) rest

/-! ### The dialog layer -/

/-- The dialog configuration relevant to the event handlers: whether an
`on_complete_callback` / `on_error_callback` was set, and the auto-close
settings (`auto_close_on_complete`, `auto_close_delay`). -/
structure DialogCfg where
  hasCompleteCallback : Bool
  hasErrorCallback : Bool
  autoCloseOnComplete : Bool
  autoCloseDelay : Nat

/-- UI-thread effects performed by the `ThreadedLoadingDialog` slots.
`startCloseTimer delay accept` is `QTimer.singleShot(delay, self.accept)`
when `accept = true` and `QTimer.singleShot(delay, self.reject)`
otherwise. -/
inductive DialogAction (α : Type) where
  | setStatusText (text : String)
  | setProgressBar (current total : Nat)
  | setCompleteDisplay
  | setErrorDisplay (msg : String)
  | invokeCompleteCallback (results : List α)
  | invokeErrorCallback (msg : String)
  | startCloseTimer (delayMs : Nat) (accept : Bool)

/-- The slot each worker signal is connected to in
`ThreadedLoadingDialog.start`: `_on_task_started`, `_on_task_completed`
(a `pass`), `_on_progress` (guarded by `total > 0`),
`_on_all_completed`, `_on_error`. -/
def handleEvent {α : Type} (cfg : DialogCfg) : Event α → List (DialogAction α)
  | Event.taskStarted _ d => [DialogAction.setStatusText d]
  | Event.taskCompleted _ => []
  | Event.progress c t =>
      if 0 < t then [DialogAction.setProgressBar c t] else []
  | Event.allCompleted rs =>
      [DialogAction.setCompleteDisplay] ++
        (if cfg.hasCompleteCallback then [DialogAction.invokeCompleteCallback rs] else []) ++
        (if cfg.autoCloseOnComplete then [DialogAction.startCloseTimer cfg.autoCloseDelay true] else [])
  | Event.error m =>
      [DialogAction.setErrorDisplay m] ++
        (if cfg.hasErrorCallback then [DialogAction.invokeErrorCallback m] else []) ++
        [DialogAction.startCloseTimer 5000 false]

/-- The UI actions produced by delivering a run's event trace to the
dialog's slots in order. -/
def dialogRun {α : Type} (cfg : DialogCfg) : List (Event α) → List (DialogAction α)
  | [] => []
  | e :: rest => handleEvent cfg e ++ dialogRun cfg rest

def isInvokeComplete {α : Type} : DialogAction α → Bool
  | DialogAction.invokeCompleteCallback _ => true
  | _ => false

def isInvokeError {α : Type} : DialogAction α → Bool
  | DialogAction.invokeErrorCallback _ => true
  | _ => false

/-- What `ThreadedLoadingDialog.start` does synchronously on the calling
thread.  `raiseExn` models raising a Python exception; the source's
`start` never does so — on an empty queue it calls
`self.set_error("No tasks to execute")` and returns, otherwise it
constructs the worker, connects its signals and starts the thread. -/
inductive StartAction (α : Type) where
  | setErrorDisplay (msg : String)
  | spawnWorker (tasks : List (TaskDescriptor α))
  | raiseExn (msg : String)

def isRaiseExn {α : Type} : StartAction α → Bool
  | StartAction.raiseExn _ => true
  | _ => false

def isSpawnWorker {α : Type} : StartAction α → Bool
  | StartAction.spawnWorker _ => true
  | _ => false

/-- `ThreadedLoadingDialog.start`. -/
def dialogStart {α : Type} (tasks : List (TaskDescriptor α)) : List (StartAction α) :=
  if tasks.isEmpty then [StartAction.setErrorDisplay "No tasks to execute"]
  else [StartAction.spawnWorker tasks]

/-! ### Helper lemmas about traces -/

lemma startedIndices_append {α : Type} (l r : List (Event α)) :
    startedIndices (l ++ r) = startedIndices l ++ startedIndices r := by
  induction l with
  | nil => rfl
  | cons e l ih => cases e <;> simp [startedIndices, ih]

lemma completedIndices_append {α : Type} (l r : List (Event α)) :
    completedIndices (l ++ r) = completedIndices l ++ completedIndices r := by
  induction l with
  | nil => rfl
  | cons e l ih => cases e <;> simp [completedIndices, ih]

lemma progressValues_append {α : Type} (l r : List (Event α)) :
    progressValues (l ++ r) = progressValues l ++ progressValues r := by
  induction l with
  | nil => rfl
  | cons e l ih => cases e <;> simp [progressValues, ih]

lemma startedIndices_succEvents {α : Type} (total : Nat) :
    ∀ (ts : List (TaskDescriptor α)) (i : Nat),
      startedIndices (succEvents total i ts) = climb i ts.length := by
  intro ts
  induction ts with
  | nil => intro i; rfl
  | cons t ts ih => intro i; simp [succEvents, startedIndices, climb, ih]

lemma completedIndices_succEvents {α : Type} (total : Nat) :
    ∀ (ts : List (TaskDescriptor α)) (i : Nat),
      completedIndices (succEvents total i ts) = climb i ts.length := by
  intro ts
  induction ts with
  | nil => intro i; rfl
  | cons t ts ih => intro i; simp [succEvents, completedIndices, climb, ih]

lemma progressValues_succEvents {α : Type} (total : Nat) :
    ∀ (ts : List (TaskDescriptor α)) (i : Nat),
      progressValues (succEvents total i ts) = climb i ts.length := by
  intro ts
  induction ts with
  | nil => intro i; rfl
  | cons t ts ih => intro i; simp [succEvents, progressValues, climb, ih]

lemma countP_isAllCompleted_succEvents {α : Type} (total : Nat) :
    ∀ (ts : List (TaskDescriptor α)) (i : Nat),
      List.countP isAllCompleted (succEvents total i ts) = 0 := by
  intro ts
  induction ts with
  | nil => intro i; rfl
  | cons t ts ih => intro i; simp [succEvents, List.countP_cons, isAllCompleted, ih]

lemma countP_isErrorEvent_succEvents {α : Type} (total : Nat) :
    ∀ (ts : List (TaskDescriptor α)) (i : Nat),
      List.countP isErrorEvent (succEvents total i ts) = 0 := by
  intro ts
  induction ts with
  | nil => intro i; rfl
  | cons t ts ih => intro i; simp [succEvents, List.countP_cons, isErrorEvent, ih]

lemma climb_snoc (n : Nat) : ∀ i : Nat, climb i n ++ [i + n] = climb i (n + 1) := by
  induction n with
  | zero => intro i; rfl
  | succ n ih =>
      intro i
      have h := ih (i + 1)
      have harith : i + 1 + n = i + (n + 1) := by omega
      simp only [climb, List.cons_append]
      rw [← harith, h]
      rfl

/-- Skipping a fully succeeding, never-cancelled prefix of the queue:
the loop emits the three per-task events for each prefix task, appends
their results, and continues on the remaining tasks. -/
lemma runLoop_skip_succ {α : Type} (cancel : Nat → Bool) (total : Nat)
    {pre : List (TaskDescriptor α)} {outs : List α}
    (h : Succeeds pre outs) :
    ∀ (rest : List (TaskDescriptor α)) (i : Nat) (acc : List α),
      (∀ j, j < 2 * pre.length → cancel (2 * i + j) = false) →
      runLoop cancel total (pre ++ rest) i acc =
        { events := succEvents total i pre ++
            (runLoop cancel total rest (i + pre.length) (acc ++ outs)).events,
          results := (runLoop cancel total rest (i + pre.length) (acc ++ outs)).results,
          status := (runLoop cancel total rest (i + pre.length) (acc ++ outs)).status } := by
  induction h with
  | nil => intro rest i acc _; simp [succEvents]
  | @cons t v pre2 outs2 hco htail ih =>
      intro rest i acc hc
      have hc0 : cancel (2 * i) = false := by
        have h0 := hc 0 (by simp)
        simpa using h0
      have hc1 : cancel (2 * i + 1) = false := by
        refine hc 1 ?_
        simp [Nat.mul_succ]
      have hcshift : ∀ j, j < 2 * pre2.length → cancel (2 * (i + 1) + j) = false := by
        intro j hj
        have harith : 2 * (i + 1) + j = 2 * i + (j + 2) := by omega
        rw [harith]
        refine hc (j + 2) ?_
        simp only [List.length_cons]
        omega
      have hrec := ih rest (i + 1) (acc ++ [v]) hcshift
      simp only [List.cons_append, runLoop, hc0, hco, hc1, Bool.false_eq_true,
        if_false, List.append_eq]
      rw [hrec]
      simp [succEvents, List.length_cons,
        show i + 1 + pre2.length = i + (pre2.length + 1) from by omega]

/-- A run over a fully succeeding queue with the cancellation flag never
set: the per-task event triples, then the final `progress` and the
single `all_completed` carrying all results in queue order. -/
lemma runWorker_success {α : Type} {tasks : List (TaskDescriptor α)} {outs : List α}
    (cancel : Nat → Bool) (hc : ∀ r, cancel r = false)
    (h : Succeeds tasks outs) :
    runWorker tasks cancel =
      { events := succEvents tasks.length 0 tasks ++
          [Event.progress tasks.length tasks.length, Event.allCompleted outs],
        results := outs, status := RunStatus.completed } := by
  have hskip := runLoop_skip_succ cancel tasks.length h [] 0 []
      (fun j _ => hc _)
  rw [List.append_nil] at hskip
  unfold runWorker
  rw [hskip]
  simp [runLoop]

/-- A run that reaches a failing task with the flag never set: the
per-task triples of the succeeding prefix, the started/progress pair of
the failing task, then the single `error`; its result is absent. -/
lemma runWorker_error {α : Type} {pre : List (TaskDescriptor α)} {outs : List α}
    (bad : TaskDescriptor α) (rest : List (TaskDescriptor α)) {e : String}
    (cancel : Nat → Bool) (hc : ∀ r, cancel r = false)
    (h : Succeeds pre outs) (hbad : callT bad = Except.error e) :
    runWorker (pre ++ bad :: rest) cancel =
      { events := succEvents (pre ++ bad :: rest).length 0 pre ++
          [Event.taskStarted pre.length (descOf bad pre.length),
           Event.progress pre.length (pre ++ bad :: rest).length,
           Event.error ("Error:" ++ bad.funcName ++ " " ++ e)],
        results := outs, status := RunStatus.errored } := by
  have hskip := runLoop_skip_succ cancel (pre ++ bad :: rest).length h (bad :: rest) 0 []
      (fun j _ => hc _)
  unfold runWorker
  rw [hskip]
  simp [runLoop, hc, hbad]

/-- A run where the flag is first read true at the check after task
`pre.length`'s operation returned: that result is already appended, but
no `task_completed` fires for it and the run returns silently. -/
lemma runWorker_cancel_post {α : Type} {pre : List (TaskDescriptor α)} {outs : List α}
    (t : TaskDescriptor α) (rest : List (TaskDescriptor α)) {v : α}
    (cancel : Nat → Bool)
    (hc : ∀ j, j ≤ 2 * pre.length → cancel j = false)
    (h : Succeeds pre outs) (hok : callT t = Except.ok v)
    (hc1 : cancel (2 * pre.length + 1) = true) :
    runWorker (pre ++ t :: rest) cancel =
      { events := succEvents (pre ++ t :: rest).length 0 pre ++
          [Event.taskStarted pre.length (descOf t pre.length),
           Event.progress pre.length (pre ++ t :: rest).length],
        results := outs ++ [v], status := RunStatus.cancelled } := by
  have hskip := runLoop_skip_succ cancel (pre ++ t :: rest).length h (t :: rest) 0 []
      (fun j hj => by simpa using hc j (by omega))
  unfold runWorker
  rw [hskip]
  have hc0 : cancel (2 * pre.length) = false := hc (2 * pre.length) (le_refl _)
  simp [runLoop, hc0, hok, hc1]

/-- Invariant of the loop: the terminal events `all_completed` and
`error` together occur at most once, and not at all on a run that
returned after observing the cancellation flag. -/
lemma runLoop_terminal_count {α : Type} (cancel : Nat → Bool) (total : Nat) :
    ∀ (ts : List (TaskDescriptor α)) (i : Nat) (acc : List α),
      List.countP isAllCompleted (runLoop cancel total ts i acc).events +
        List.countP isErrorEvent (runLoop cancel total ts i acc).events ≤
        (if (runLoop cancel total ts i acc).status = RunStatus.cancelled then 0 else 1) := by
  intro ts
  induction ts with
  | nil =>
      intro i acc
      simp [runLoop, List.countP_cons, isAllCompleted, isErrorEvent]
  | cons t rest ih =>
      intro i acc
      by_cases h0 : cancel (2 * i) = true
      · simp [runLoop, h0]
      · have h0f : cancel (2 * i) = false := by
          revert h0; cases cancel (2 * i) <;> simp
        cases hcall : callT t with
        | error e =>
            simp [runLoop, h0f, hcall, List.countP_cons, List.countP_append,
              isAllCompleted, isErrorEvent]
        | ok v =>
            by_cases h1 : cancel (2 * i + 1) = true
            · simp [runLoop, h0f, hcall, h1, isAllCompleted, isErrorEvent]
            · have h1f : cancel (2 * i + 1) = false := by
                revert h1; cases cancel (2 * i + 1) <;> simp
              have hrec := ih (i + 1) (acc ++ [v])
              simpa [runLoop, h0f, hcall, h1f, List.countP_cons, List.countP_append,
                isAllCompleted, isErrorEvent] using hrec

lemma countP_isInvokeComplete_handleEvent {α : Type} (cfg : DialogCfg)
    (hcb : cfg.hasCompleteCallback = true) (e : Event α) :
    List.countP isInvokeComplete (handleEvent cfg e) =
      (if isAllCompleted e = true then 1 else 0) := by
  cases e <;>
    simp [handleEvent, hcb, isInvokeComplete, isAllCompleted,
      List.countP_cons, List.countP_append]

lemma countP_isInvokeError_handleEvent {α : Type} (cfg : DialogCfg)
    (heb : cfg.hasErrorCallback = true) (e : Event α) :
    List.countP isInvokeError (handleEvent cfg e) =
      (if isErrorEvent e = true then 1 else 0) := by
  cases e <;>
    simp [handleEvent, heb, isInvokeError, isErrorEvent,
      List.countP_cons, List.countP_append]

/-- With a completion callback set, the dialog invokes it once per
`all_completed` event delivered. -/
lemma countP_isInvokeComplete_dialogRun {α : Type} (cfg : DialogCfg)
    (hcb : cfg.hasCompleteCallback = true) :
    ∀ evs : List (Event α),
      List.countP isInvokeComplete (dialogRun cfg evs) =
        List.countP isAllCompleted evs := by
  intro evs
  induction evs with
  | nil => rfl
  | cons e rest ih =>
      simp only [dialogRun, List.countP_append, List.countP_cons, ih,
        countP_isInvokeComplete_handleEvent cfg hcb e]
      omega

/-- With an error callback set, the dialog invokes it once per `error`
event delivered. -/
lemma countP_isInvokeError_dialogRun {α : Type} (cfg : DialogCfg)
    (heb : cfg.hasErrorCallback = true) :
    ∀ evs : List (Event α),
      List.countP isInvokeError (dialogRun cfg evs) =
        List.countP isErrorEvent evs := by
  intro evs
  induction evs with
  | nil => rfl
  | cons e rest ih =>
      simp only [dialogRun, List.countP_append, List.countP_cons, ih,
        countP_isInvokeError_handleEvent cfg heb e]
      omega

lemma nondecreasingFrom_climb :
    ∀ (n a i tl : Nat), a ≤ i → i + n ≤ tl →
      nondecreasingFrom a (climb i n ++ [tl]) = true := by
  intro n
  induction n with
  | zero =>
      intro a i tl ha hi
      simp [climb, nondecreasingFrom]
      omega
  | succ n ih =>
      intro a i tl ha hi
      have h2 := ih i (i + 1) tl (by omega) (by omega)
      simp [climb, nondecreasingFrom, h2, ha]

lemma nondecreasing_climb_snocd (n tl : Nat) (h : n ≤ tl) :
    nondecreasing (climb 0 n ++ [tl]) = true := by
  cases n with
  | zero => simp [climb, nondecreasing, nondecreasingFrom]
  | succ n =>
      simp only [climb, List.cons_append, nondecreasing]
      exact nondecreasingFrom_climb n 0 1 tl (by omega) (by omega)

lemma immBefore_here {α : Type} [DecidableEq α] (a b : Event α)
    (l : List (Event α)) : immBefore a b (a :: b :: l) = true := by
  simp [immBefore]

lemma immBefore_cons {α : Type} [DecidableEq α] (a b c : Event α)
    (l : List (Event α)) (h : immBefore a b l = true) :
    immBefore a b (c :: l) = true := by
  cases l with
  | nil => simp [immBefore] at h
  | cons d l2 => simp [immBefore] at h ⊢; exact Or.inr h

/-- In the all-success trace, each task's `task_started` is immediately
followed by its `progress` pair. -/
lemma immBefore_succEvents {α : Type} [DecidableEq α] (total : Nat) :
    ∀ (ts : List (TaskDescriptor α)) (i j : Nat) (hj : j < ts.length)
      (tail : List (Event α)),
      immBefore (Event.taskStarted (i + j) (descOf (ts.get ⟨j, hj⟩) (i + j)))
        (Event.progress (i + j) total)
        (succEvents total i ts ++ tail) = true := by
  intro ts
  induction ts with
  | nil => intro i j hj tail; simp at hj
  | cons t rest ih =>
      intro i j hj tail
      cases j with
      | zero =>
          simp only [succEvents, List.cons_append]
          exact immBefore_here _ _ _
      | succ j2 =>
          have hj2 : j2 < rest.length := by
            simpa [List.length_cons] using hj
          have h := ih (i + 1) j2 hj2 tail
          have harith : i + 1 + j2 = i + (j2 + 1) := by omega
          rw [harith] at h
          simp only [succEvents, List.cons_append]
          exact immBefore_cons _ _ _ _ (immBefore_cons _ _ _ _ (immBefore_cons _ _ _ _ h))

/-- The all-success trace of the prefix tasks never shows the final
`progress(total, total)` value. -/
lemma progress_total_not_mem_succEvents {α : Type} (total : Nat) :
    ∀ (ts : List (TaskDescriptor α)) (i : Nat), i + ts.length ≤ total →
      Event.progress total total ∉ succEvents total i ts := by
  intro ts
  induction ts with
  | nil => intro i _; simp [succEvents]
  | cons t rest ih =>
      intro i h
      have hne : ¬ i = total := by
        simp only [List.length_cons] at h
        omega
      have hr := ih (i + 1) (by simp only [List.length_cons] at h; omega)
      simp only [succEvents, List.mem_cons]
      intro hcase
      rcases hcase with h1 | h1 | h1 | h1
      · exact Event.noConfusion h1
      · exact hne (Event.progress.inj h1).1.symm
      · exact Event.noConfusion h1
      · exact hr h1

/-- A task `i` reached with its pre-task flag read false always emits
its `task_started` event, whatever its operation then does. -/
lemma taskStarted_mem_runLoop_cons {α : Type} (cancel : Nat → Bool) (total : Nat)
    (t : TaskDescriptor α) (rest : List (TaskDescriptor α)) (i : Nat) (acc : List α)
    (h0 : cancel (2 * i) = false) :
    Event.taskStarted i (descOf t i) ∈ (runLoop cancel total (t :: rest) i acc).events := by
  cases hcall : callT t with
  | error e => simp [runLoop, h0, hcall]
  | ok v =>
      by_cases h1 : cancel (2 * i + 1) = true
      · simp [runLoop, h0, hcall, h1]
      · have h1f : cancel (2 * i + 1) = false := by
          revert h1; cases cancel (2 * i + 1) <;> simp
        simp [runLoop, h0, hcall, h1f]

lemma immBefore_append_pair {α : Type} [DecidableEq α] (a b : Event α) :
    ∀ l : List (Event α), immBefore a b (l ++ [a, b]) = true := by
  intro l
  induction l with
  | nil => simp [immBefore]
  | cons c l ih => exact immBefore_cons a b c (l ++ [a, b]) ih

/-! ### Concrete descriptors used in witnesses and counterexamples -/

/-- A succeeding task whose operation returns `n`; no `'description'`,
`'args'` or `'kwargs'` keys. -/
def okTask (n : Nat) : TaskDescriptor Nat :=
  { function := fun _ _ => Except.ok n, funcName := "okTask",
    description := none, args := none, kwargs := none }

/-- A failing task whose operation raises with message `m`. -/
def failTask (m : String) : TaskDescriptor Nat :=
  { function := fun _ _ => Except.error m, funcName := "failTask",
    description := none, args := none, kwargs := none }

/-! ### Claims -/

/-- C1: For every non-empty queue of N tasks in which every task's
operation returns without raising and `cancel()` is never called, the
run emits exactly one `all_completed` event, its results payload is the
list pairing each task with its returned value in queue order (so it
has exactly N entries, entry i being task i's return value), and no
`error` event is ever emitted. -/
theorem C1_success_run {α : Type} (tasks : List (TaskDescriptor α)) (outs : List α)
    (cancel : Nat → Bool)
    (_hne : tasks ≠ [])
    (hcancel : ∀ r, cancel r = false)
    (hsucc : Succeeds tasks outs) :
    List.countP isAllCompleted (runWorker tasks cancel).events = 1 ∧
    Event.allCompleted outs ∈ (runWorker tasks cancel).events ∧
    (runWorker tasks cancel).results = outs ∧
    outs.length = tasks.length ∧
    List.countP isErrorEvent (runWorker tasks cancel).events = 0 := by
  rw [runWorker_success cancel hcancel hsucc]
  refine ⟨?_, ?_, rfl, (List.Forall₂.length_eq hsucc).symm, ?_⟩
  · simp [List.countP_append, countP_isAllCompleted_succEvents,
      List.countP_cons, isAllCompleted]
  · simp
  · simp [List.countP_append, countP_isErrorEvent_succEvents,
      List.countP_cons, isErrorEvent]

/-- Witness for C1 on the queue `[okTask 3, okTask 5]`. -/
theorem C1_success_run_witness :
    (([okTask 3, okTask 5] : List (TaskDescriptor Nat)) ≠ [] ∧
      Succeeds [okTask 3, okTask 5] [3, 5]) ∧
    (List.countP isAllCompleted
        (runWorker [okTask 3, okTask 5] (fun _ => false)).events = 1 ∧
      Event.allCompleted [3, 5] ∈
        (runWorker [okTask 3, okTask 5] (fun _ => false)).events ∧
      (runWorker [okTask 3, okTask 5] (fun _ => false)).results = [3, 5] ∧
      ([3, 5] : List Nat).length =
        ([okTask 3, okTask 5] : List (TaskDescriptor Nat)).length ∧
      List.countP isErrorEvent
        (runWorker [okTask 3, okTask 5] (fun _ => false)).events = 0) :=
  ⟨⟨by simp, List.Forall₂.cons rfl (List.Forall₂.cons rfl List.Forall₂.nil)⟩,
    C1_success_run [okTask 3, okTask 5] [3, 5] (fun _ => false) (by simp)
      (fun _ => rfl)
      (List.Forall₂.cons rfl (List.Forall₂.cons rfl List.Forall₂.nil))⟩

/-- C2: If task k is the first to fail and no cancellation occurs, then
exactly one `error` event fires, `task_started` fired exactly for tasks
0..k (in order), `task_completed` exactly for tasks 0..k-1 (so task k
started but never completed and tasks after k got no events), no
`all_completed` fires, and the results are exactly the outcomes of
tasks 0..k-1. -/
theorem C2_first_failure {α : Type} (pre : List (TaskDescriptor α)) (outs : List α)
    (bad : TaskDescriptor α) (rest : List (TaskDescriptor α)) (e : String)
    (cancel : Nat → Bool)
    (hcancel : ∀ r, cancel r = false)
    (hpre : Succeeds pre outs)
    (hbad : callT bad = Except.error e) :
    List.countP isErrorEvent (runWorker (pre ++ bad :: rest) cancel).events = 1 ∧
    startedIndices (runWorker (pre ++ bad :: rest) cancel).events =
      climb 0 (pre.length + 1) ∧
    completedIndices (runWorker (pre ++ bad :: rest) cancel).events =
      climb 0 pre.length ∧
    List.countP isAllCompleted (runWorker (pre ++ bad :: rest) cancel).events = 0 ∧
    (runWorker (pre ++ bad :: rest) cancel).results = outs ∧
    outs.length = pre.length := by
  rw [runWorker_error bad rest cancel hcancel hpre hbad]
  refine ⟨?_, ?_, ?_, ?_, rfl, (List.Forall₂.length_eq hpre).symm⟩
  · simp [List.countP_append, countP_isErrorEvent_succEvents,
      List.countP_cons, isErrorEvent]
  · rw [startedIndices_append, startedIndices_succEvents]
    have htail : startedIndices
        ([Event.taskStarted pre.length (descOf bad pre.length),
          Event.progress pre.length (pre ++ bad :: rest).length,
          Event.error ("Error:" ++ bad.funcName ++ " " ++ e)] : List (Event α)) =
        [pre.length] := rfl
    rw [htail]
    simpa using climb_snoc pre.length 0
  · rw [completedIndices_append, completedIndices_succEvents]
    simp [completedIndices]
  · simp [List.countP_append, countP_isAllCompleted_succEvents,
      List.countP_cons, isAllCompleted]

/-- Witness for C2 on the queue `[okTask 1, failTask "boom", okTask 9]`
(k = 1). -/
theorem C2_first_failure_witness :
    (Succeeds [okTask 1] [1] ∧ callT (failTask "boom") = Except.error "boom") ∧
    (List.countP isErrorEvent
        (runWorker ([okTask 1] ++ failTask "boom" :: [okTask 9])
          (fun _ => false)).events = 1 ∧
      startedIndices (runWorker ([okTask 1] ++ failTask "boom" :: [okTask 9])
          (fun _ => false)).events = climb 0 ([okTask 1].length + 1) ∧
      completedIndices (runWorker ([okTask 1] ++ failTask "boom" :: [okTask 9])
          (fun _ => false)).events = climb 0 [okTask 1].length ∧
      List.countP isAllCompleted
        (runWorker ([okTask 1] ++ failTask "boom" :: [okTask 9])
          (fun _ => false)).events = 0 ∧
      (runWorker ([okTask 1] ++ failTask "boom" :: [okTask 9])
        (fun _ => false)).results = [1] ∧
      ([1] : List Nat).length = [okTask 1].length) :=
  ⟨⟨List.Forall₂.cons rfl List.Forall₂.nil, rfl⟩,
    C2_first_failure [okTask 1] [1] (failTask "boom") [okTask 9] "boom"
      (fun _ => false) (fun _ => rfl)
      (List.Forall₂.cons rfl List.Forall₂.nil) rfl⟩

/-- C3: If `cancel()` is invoked while task k is in flight (all flag
reads up to and including the pre-task read of task k return false and
the post-task read returns true), task k's operation still runs to its
own return (its value is appended to the results), and once the flag is
observed at that boundary no `task_started` for task k+1 is ever
emitted (the started indices are exactly 0..k) and neither
`all_completed` nor `error` is emitted for that run. -/
theorem C3_cancel_in_flight {α : Type} (pre : List (TaskDescriptor α)) (outs : List α)
    (t : TaskDescriptor α) (rest : List (TaskDescriptor α)) (v : α)
    (cancel : Nat → Bool)
    (hc : ∀ j, j ≤ 2 * pre.length → cancel j = false)
    (hpre : Succeeds pre outs)
    (hok : callT t = Except.ok v)
    (hc1 : cancel (2 * pre.length + 1) = true) :
    (runWorker (pre ++ t :: rest) cancel).results = outs ++ [v] ∧
    startedIndices (runWorker (pre ++ t :: rest) cancel).events =
      climb 0 (pre.length + 1) ∧
    List.countP isAllCompleted (runWorker (pre ++ t :: rest) cancel).events = 0 ∧
    List.countP isErrorEvent (runWorker (pre ++ t :: rest) cancel).events = 0 := by
  rw [runWorker_cancel_post t rest cancel hc hpre hok hc1]
  refine ⟨rfl, ?_, ?_, ?_⟩
  · rw [startedIndices_append, startedIndices_succEvents]
    have htail : startedIndices
        ([Event.taskStarted pre.length (descOf t pre.length),
          Event.progress pre.length (pre ++ t :: rest).length] : List (Event α)) =
        [pre.length] := rfl
    rw [htail]
    simpa using climb_snoc pre.length 0
  · simp [List.countP_append, countP_isAllCompleted_succEvents,
      List.countP_cons, isAllCompleted]
  · simp [List.countP_append, countP_isErrorEvent_succEvents,
      List.countP_cons, isErrorEvent]

/-- Witness for C3: queue `[okTask 1, okTask 2, okTask 9]`, flag first
read true at the check after task 1's operation returned (reads 0..2
false, read 3 true). -/
theorem C3_cancel_in_flight_witness :
    ((∀ j, j ≤ 2 * [okTask 1].length → (fun r => decide (3 ≤ r)) j = false) ∧
      Succeeds [okTask 1] [1] ∧ callT (okTask 2) = Except.ok 2 ∧
      (fun r => decide (3 ≤ r)) (2 * [okTask 1].length + 1) = true) ∧
    ((runWorker ([okTask 1] ++ okTask 2 :: [okTask 9])
        (fun r => decide (3 ≤ r))).results = [1] ++ [2] ∧
      startedIndices (runWorker ([okTask 1] ++ okTask 2 :: [okTask 9])
        (fun r => decide (3 ≤ r))).events = climb 0 ([okTask 1].length + 1) ∧
      List.countP isAllCompleted (runWorker ([okTask 1] ++ okTask 2 :: [okTask 9])
        (fun r => decide (3 ≤ r))).events = 0 ∧
      List.countP isErrorEvent (runWorker ([okTask 1] ++ okTask 2 :: [okTask 9])
        (fun r => decide (3 ≤ r))).events = 0) :=
  ⟨⟨by decide, List.Forall₂.cons rfl List.Forall₂.nil, rfl, by decide⟩,
    C3_cancel_in_flight [okTask 1] [1] (okTask 2) [okTask 9] 2
      (fun r => decide (3 ≤ r)) (by decide)
      (List.Forall₂.cons rfl List.Forall₂.nil) rfl (by decide)⟩

/-- C4: In every run, at most one terminal signal class is emitted:
`all_completed` and `error` together occur at most once (so never
both), and a run that ended by observing the cancellation flag emits
neither. -/
theorem C4_single_terminal {α : Type} (tasks : List (TaskDescriptor α))
    (cancel : Nat → Bool) :
    List.countP isAllCompleted (runWorker tasks cancel).events +
      List.countP isErrorEvent (runWorker tasks cancel).events ≤
      (if (runWorker tasks cancel).status = RunStatus.cancelled then 0 else 1) :=
  runLoop_terminal_count cancel tasks.length tasks 0 []

/-- C5 counterexample: on the empty queue, `start()` does not raise any
exception (in particular no `InvalidQueue`); it sets the dialog's error
display to "No tasks to execute" and returns. -/
theorem C5_counterexample :
    dialogStart ([] : List (TaskDescriptor Nat)) =
      [StartAction.setErrorDisplay "No tasks to execute"] ∧
    (dialogStart ([] : List (TaskDescriptor Nat))).all
      (fun a => !(isRaiseExn a)) = true ∧
    (dialogStart ([] : List (TaskDescriptor Nat))).all
      (fun a => !(isSpawnWorker a)) = true :=
  ⟨rfl, rfl, rfl⟩

/-- C5 (amended): For an empty task queue, `start()` signals the
problem synchronously — it sets the dialog's error display to
"No tasks to execute" — but raises no exception, and no worker thread
is spawned. -/
theorem C5_empty_queue_start {α : Type} (tasks : List (TaskDescriptor α))
    (h : tasks = []) :
    dialogStart tasks = [StartAction.setErrorDisplay "No tasks to execute"] ∧
    (dialogStart tasks).all (fun a => !(isRaiseExn a)) = true ∧
    (dialogStart tasks).all (fun a => !(isSpawnWorker a)) = true := by
  subst h
  exact ⟨rfl, rfl, rfl⟩

/-- Witness for C5 at the empty queue over `Nat`. -/
theorem C5_empty_queue_start_witness :
    (([] : List (TaskDescriptor Nat)) = []) ∧
    (dialogStart ([] : List (TaskDescriptor Nat)) =
        [StartAction.setErrorDisplay "No tasks to execute"] ∧
      (dialogStart ([] : List (TaskDescriptor Nat))).all
        (fun a => !(isRaiseExn a)) = true ∧
      (dialogStart ([] : List (TaskDescriptor Nat))).all
        (fun a => !(isSpawnWorker a)) = true) :=
  ⟨rfl, C5_empty_queue_start ([] : List (TaskDescriptor Nat)) rfl⟩

/-- C9: If cancellation is observed at the post-task boundary right
after task k's operation returned successfully, task k's result has
already been appended (the results are the k prefix outcomes plus task
k's value, k+1 entries), the `task_completed(k)` event is never emitted
(completed indices stop at k-1), and the run ends silently: status
`cancelled`, no `all_completed`, no `error`. -/
theorem C9_cancel_after_append {α : Type} (pre : List (TaskDescriptor α)) (outs : List α)
    (t : TaskDescriptor α) (rest : List (TaskDescriptor α)) (v : α)
    (cancel : Nat → Bool)
    (hc : ∀ j, j ≤ 2 * pre.length → cancel j = false)
    (hpre : Succeeds pre outs)
    (hok : callT t = Except.ok v)
    (hc1 : cancel (2 * pre.length + 1) = true) :
    (runWorker (pre ++ t :: rest) cancel).results = outs ++ [v] ∧
    (runWorker (pre ++ t :: rest) cancel).results.length = pre.length + 1 ∧
    completedIndices (runWorker (pre ++ t :: rest) cancel).events =
      climb 0 pre.length ∧
    (runWorker (pre ++ t :: rest) cancel).status = RunStatus.cancelled ∧
    List.countP isAllCompleted (runWorker (pre ++ t :: rest) cancel).events = 0 ∧
    List.countP isErrorEvent (runWorker (pre ++ t :: rest) cancel).events = 0 := by
  rw [runWorker_cancel_post t rest cancel hc hpre hok hc1]
  refine ⟨rfl, ?_, ?_, rfl, ?_, ?_⟩
  · simp [List.length_append, List.Forall₂.length_eq hpre]
  · rw [completedIndices_append, completedIndices_succEvents]
    simp [completedIndices]
  · simp [List.countP_append, countP_isAllCompleted_succEvents,
      List.countP_cons, isAllCompleted]
  · simp [List.countP_append, countP_isErrorEvent_succEvents,
      List.countP_cons, isErrorEvent]

/-- Witness for C9: queue `[okTask 1, okTask 2, okTask 9]`, flag first
read true at read 3, the post-task check of task 1. -/
theorem C9_cancel_after_append_witness :
    ((∀ j, j ≤ 2 * [okTask 1].length → (fun r => decide (3 ≤ r)) j = false) ∧
      Succeeds [okTask 1] [1] ∧ callT (okTask 2) = Except.ok 2 ∧
      (fun r => decide (3 ≤ r)) (2 * [okTask 1].length + 1) = true) ∧
    ((runWorker ([okTask 1] ++ okTask 2 :: [okTask 9])
        (fun r => decide (3 ≤ r))).results = [1] ++ [2] ∧
      (runWorker ([okTask 1] ++ okTask 2 :: [okTask 9])
        (fun r => decide (3 ≤ r))).results.length = [okTask 1].length + 1 ∧
      completedIndices (runWorker ([okTask 1] ++ okTask 2 :: [okTask 9])
        (fun r => decide (3 ≤ r))).events = climb 0 [okTask 1].length ∧
      (runWorker ([okTask 1] ++ okTask 2 :: [okTask 9])
        (fun r => decide (3 ≤ r))).status = RunStatus.cancelled ∧
      List.countP isAllCompleted (runWorker ([okTask 1] ++ okTask 2 :: [okTask 9])
        (fun r => decide (3 ≤ r))).events = 0 ∧
      List.countP isErrorEvent (runWorker ([okTask 1] ++ okTask 2 :: [okTask 9])
        (fun r => decide (3 ≤ r))).events = 0) :=
  ⟨⟨by decide, List.Forall₂.cons rfl List.Forall₂.nil, rfl, by decide⟩,
    C9_cancel_after_append [okTask 1] [1] (okTask 2) [okTask 9] 2
      (fun r => decide (3 ≤ r)) (by decide)
      (List.Forall₂.cons rfl List.Forall₂.nil) rfl (by decide)⟩

/-- C6 counterexample: on the queue `[okTask 7]` with the flag never
set, `progress(0, 1)` does NOT fire immediately before the
`taskStarted` event for task 0 — the order is reversed: `task_started`
fires first and `progress(0, 1)` immediately after it. -/
theorem C6_counterexample :
    immBefore (Event.progress 0 1) (Event.taskStarted 0 "Task 1")
      (runWorker [okTask 7] (fun _ => false)).events = false ∧
    immBefore (Event.taskStarted 0 "Task 1") (Event.progress 0 1)
      (runWorker [okTask 7] (fun _ => false)).events = true := by
  exact ⟨by decide, by decide⟩

/-- C6 (amended): For every run without early termination over a queue
of N tasks, the `progress(i, N)` event fires immediately AFTER the
`taskStarted` event for task i, for every i from 0 to N-1, and a final
`progress(N, N)` fires only immediately before `all_completed` (it is
emitted exactly once, immediately before `all_completed`); progress
values are monotonically non-decreasing within the run. -/
theorem C6_progress_order {α : Type} [DecidableEq α]
    (tasks : List (TaskDescriptor α)) (outs : List α) (cancel : Nat → Bool)
    (hcancel : ∀ r, cancel r = false)
    (hsucc : Succeeds tasks outs) :
    (∀ j (hj : j < tasks.length),
      immBefore (Event.taskStarted j (descOf (tasks.get ⟨j, hj⟩) j))
        (Event.progress j tasks.length)
        (runWorker tasks cancel).events = true) ∧
    immBefore (Event.progress tasks.length tasks.length)
      (Event.allCompleted outs) (runWorker tasks cancel).events = true ∧
    List.countP (fun e => decide (e = Event.progress tasks.length tasks.length))
      (runWorker tasks cancel).events = 1 ∧
    nondecreasing (progressValues (runWorker tasks cancel).events) = true := by
  rw [runWorker_success cancel hcancel hsucc]
  refine ⟨?_, ?_, ?_, ?_⟩
  · intro j hj
    have h := immBefore_succEvents tasks.length tasks 0 j hj
      [Event.progress tasks.length tasks.length, Event.allCompleted outs]
    simpa using h
  · exact immBefore_append_pair _ _ _
  · rw [List.countP_append]
    have h0 : List.countP
        (fun e => decide (e = Event.progress tasks.length tasks.length))
        (succEvents tasks.length 0 tasks) = 0 := by
      refine List.countP_eq_zero.mpr ?_
      intro a ha
      simp only [decide_eq_true_eq]
      intro hEq
      rw [hEq] at ha
      exact progress_total_not_mem_succEvents tasks.length tasks 0 (by omega) ha
    rw [h0]
    simp [List.countP_cons]
  · rw [progressValues_append, progressValues_succEvents]
    have htail : progressValues
        ([Event.progress tasks.length tasks.length,
          Event.allCompleted outs] : List (Event α)) = [tasks.length] := rfl
    rw [htail]
    exact nondecreasing_climb_snocd tasks.length tasks.length (le_refl _)

/-- Witness for C6 on the queue `[okTask 3, okTask 5]`, instantiating
the per-task ordering at j = 0 and j = 1. -/
theorem C6_progress_order_witness :
    Succeeds [okTask 3, okTask 5] [3, 5] ∧
    (immBefore (Event.taskStarted 0 "Task 1") (Event.progress 0 2)
        (runWorker [okTask 3, okTask 5] (fun _ => false)).events = true ∧
      immBefore (Event.taskStarted 1 "Task 2") (Event.progress 1 2)
        (runWorker [okTask 3, okTask 5] (fun _ => false)).events = true ∧
      immBefore (Event.progress 2 2) (Event.allCompleted [3, 5])
        (runWorker [okTask 3, okTask 5] (fun _ => false)).events = true ∧
      List.countP (fun e => decide (e = Event.progress 2 2))
        (runWorker [okTask 3, okTask 5] (fun _ => false)).events = 1 ∧
      nondecreasing (progressValues
        (runWorker [okTask 3, okTask 5] (fun _ => false)).events) = true) := by
  have hsucc : Succeeds [okTask 3, okTask 5] [3, 5] :=
    List.Forall₂.cons rfl (List.Forall₂.cons rfl List.Forall₂.nil)
  have h := C6_progress_order [okTask 3, okTask 5] [3, 5] (fun _ => false)
    (fun _ => rfl) hsucc
  refine ⟨hsucc, ?_, ?_, h.2.1, h.2.2.1, h.2.2.2⟩
  · have h0 := h.1 0 (by decide)
    simpa using h0
  · have h1 := h.1 1 (by decide)
    simpa using h1

/-- C7: With both callbacks installed and auto-close enabled, the
dialog invokes the completion callback exactly as many times as
`all_completed` was emitted (hence exactly once on success and never
otherwise), with the full ordered results, and — within the handling of
`all_completed` — before the auto-close timer is started; the error
callback is invoked exactly as many times as `error` was emitted; and
since a cancelled run emits neither terminal event, neither callback is
invoked when the run ends by cancellation. -/
theorem C7_callbacks {α : Type} (tasks : List (TaskDescriptor α))
    (cancel : Nat → Bool) (cfg : DialogCfg)
    (hcb : cfg.hasCompleteCallback = true)
    (heb : cfg.hasErrorCallback = true)
    (hauto : cfg.autoCloseOnComplete = true) :
    List.countP isInvokeComplete (dialogRun cfg (runWorker tasks cancel).events) =
      List.countP isAllCompleted (runWorker tasks cancel).events ∧
    List.countP isInvokeError (dialogRun cfg (runWorker tasks cancel).events) =
      List.countP isErrorEvent (runWorker tasks cancel).events ∧
    (List.countP isAllCompleted (runWorker tasks cancel).events +
      List.countP isErrorEvent (runWorker tasks cancel).events ≤
      (if (runWorker tasks cancel).status = RunStatus.cancelled then 0 else 1)) ∧
    handleEvent cfg (Event.allCompleted (runWorker tasks cancel).results) =
      [DialogAction.setCompleteDisplay,
       DialogAction.invokeCompleteCallback (runWorker tasks cancel).results,
       DialogAction.startCloseTimer cfg.autoCloseDelay true] := by
  refine ⟨countP_isInvokeComplete_dialogRun cfg hcb _,
    countP_isInvokeError_dialogRun cfg heb _,
    runLoop_terminal_count cancel tasks.length tasks 0 [], ?_⟩
  simp [handleEvent, hcb, hauto]

/-- Witness for C7 on the queue `[okTask 3]` with all configuration
flags set. -/
theorem C7_callbacks_witness :
    (DialogCfg.mk true true true 800).hasCompleteCallback = true ∧
    (DialogCfg.mk true true true 800).hasErrorCallback = true ∧
    (DialogCfg.mk true true true 800).autoCloseOnComplete = true ∧
    (List.countP isInvokeComplete (dialogRun (DialogCfg.mk true true true 800)
        (runWorker [okTask 3] (fun _ => false)).events) =
      List.countP isAllCompleted (runWorker [okTask 3] (fun _ => false)).events ∧
     List.countP isInvokeError (dialogRun (DialogCfg.mk true true true 800)
        (runWorker [okTask 3] (fun _ => false)).events) =
      List.countP isErrorEvent (runWorker [okTask 3] (fun _ => false)).events ∧
     (List.countP isAllCompleted (runWorker [okTask 3] (fun _ => false)).events +
      List.countP isErrorEvent (runWorker [okTask 3] (fun _ => false)).events ≤
      (if (runWorker [okTask 3] (fun _ => false)).status = RunStatus.cancelled
        then 0 else 1)) ∧
     handleEvent (DialogCfg.mk true true true 800)
        (Event.allCompleted (runWorker [okTask 3] (fun _ => false)).results) =
      [DialogAction.setCompleteDisplay,
       DialogAction.invokeCompleteCallback
         (runWorker [okTask 3] (fun _ => false)).results,
       DialogAction.startCloseTimer 800 true]) :=
  ⟨rfl, rfl, rfl,
    C7_callbacks [okTask 3] (fun _ => false) (DialogCfg.mk true true true 800)
      rfl rfl rfl⟩

/-- C8: When the first failing operation raises, the exception is
caught inside the worker — the run terminates with status `errored`,
never `raised` — and the single `error` event's message is exactly
`"Error:" ++ str(func) ++ " " ++ str(e)`, embedding both the failing
operation's identity and the failure's detail text. -/
theorem C8_error_caught {α : Type} (pre : List (TaskDescriptor α)) (outs : List α)
    (bad : TaskDescriptor α) (rest : List (TaskDescriptor α)) (e : String)
    (cancel : Nat → Bool)
    (hcancel : ∀ r, cancel r = false)
    (hpre : Succeeds pre outs)
    (hbad : callT bad = Except.error e) :
    (runWorker (pre ++ bad :: rest) cancel).status = RunStatus.errored ∧
    (∀ m, (runWorker (pre ++ bad :: rest) cancel).status ≠ RunStatus.raised m) ∧
    List.countP isErrorEvent (runWorker (pre ++ bad :: rest) cancel).events = 1 ∧
    Event.error ("Error:" ++ bad.funcName ++ " " ++ e) ∈
      (runWorker (pre ++ bad :: rest) cancel).events := by
  rw [runWorker_error bad rest cancel hcancel hpre hbad]
  refine ⟨rfl, fun m => by simp, ?_, ?_⟩
  · simp [List.countP_append, countP_isErrorEvent_succEvents,
      List.countP_cons, isErrorEvent]
  · simp

/-- Witness for C8 on the queue `[okTask 1, failTask "boom"]`. -/
theorem C8_error_caught_witness :
    (Succeeds [okTask 1] [1] ∧ callT (failTask "boom") = Except.error "boom") ∧
    ((runWorker ([okTask 1] ++ failTask "boom" :: [])
        (fun _ => false)).status = RunStatus.errored ∧
      List.countP isErrorEvent (runWorker ([okTask 1] ++ failTask "boom" :: [])
        (fun _ => false)).events = 1 ∧
      Event.error ("Error:" ++ (failTask "boom").funcName ++ " " ++ "boom") ∈
        (runWorker ([okTask 1] ++ failTask "boom" :: [])
          (fun _ => false)).events) := by
  have h := C8_error_caught [okTask 1] [1] (failTask "boom") [] "boom"
    (fun _ => false) (fun _ => rfl)
    (List.Forall₂.cons rfl List.Forall₂.nil) rfl
  exact ⟨⟨List.Forall₂.cons rfl List.Forall₂.nil, rfl⟩, h.1, h.2.2.1, h.2.2.2⟩

/-- C10: A task descriptor lacking a `'description'` entry gets the
default label `'Task {i+1}'` (1-indexed) in its `task_started` event at
index i, and a descriptor without `'args'` or `'kwargs'` invokes the
operation with no arguments (empty positional and keyword argument
lists) rather than failing. -/
theorem C10_defaults {α : Type} (pre : List (TaskDescriptor α)) (outs : List α)
    (t : TaskDescriptor α) (rest : List (TaskDescriptor α))
    (cancel : Nat → Bool)
    (hcancel : ∀ r, cancel r = false)
    (hpre : Succeeds pre outs)
    (hdesc : t.description = none)
    (hargs : t.args = none) (hkwargs : t.kwargs = none) :
    Event.taskStarted pre.length ("Task " ++ toString (pre.length + 1)) ∈
      (runWorker (pre ++ t :: rest) cancel).events ∧
    callT t = t.function [] [] := by
  constructor
  · have hskip := runLoop_skip_succ cancel (pre ++ t :: rest).length hpre
      (t :: rest) 0 [] (fun j _ => hcancel _)
    unfold runWorker
    rw [hskip]
    refine List.mem_append_right _ ?_
    have hmem := taskStarted_mem_runLoop_cons cancel (pre ++ t :: rest).length t rest
      (0 + pre.length) ([] ++ outs) (hcancel _)
    simpa [descOf, hdesc] using hmem
  · unfold callT
    rw [hargs, hkwargs]
    rfl

/-- Witness for C10 on the queue `[okTask 1, okTask 4]` (the defaulted
task at index 1 gets label "Task 2"). -/
theorem C10_defaults_witness :
    (Succeeds [okTask 1] [1] ∧ (okTask 4).description = none ∧
      (okTask 4).args = none ∧ (okTask 4).kwargs = none) ∧
    (Event.taskStarted 1 ("Task " ++ toString (1 + 1)) ∈
        (runWorker ([okTask 1] ++ okTask 4 :: []) (fun _ => false)).events ∧
      callT (okTask 4) = (okTask 4).function [] []) := by
  have h := C10_defaults [okTask 1] [1] (okTask 4) [] (fun _ => false)
    (fun _ => rfl) (List.Forall₂.cons rfl List.Forall₂.nil) rfl rfl rfl
  exact ⟨⟨List.Forall₂.cons rfl List.Forall₂.nil, rfl, rfl, rfl⟩, h⟩
